import Mathlib

/-!
Verification of the ezeehealth authentication code lifecycle, rate limiter and
document ingestion pipeline, shallowly embedded from the Python source
(apps/authentication/rate_limiting.py, apps/authentication/views.py,
apps/authentication/management/commands/cleanup_expired_codes.py,
apps/patients/ai_service.py, config/settings.py).

Time is modelled in whole seconds as Nat.  The Django cache is modelled as an
optional entry per key together with its absolute expiry time: an entry stored
at time t with timeout d is readable exactly while now < t + d, matching the
local-memory cache backend which treats an entry as expired once its deadline
has been reached.
-/

/-- One cached value together with its absolute expiry time. -/
structure CacheEntry (α : Type) where
  value : α
  expiresAt : Nat
deriving DecidableEq

/-- Reading a key from the cache at time now: the value is returned only while
the entry has not yet expired. -/
def cacheGet {α : Type} (e : Option (CacheEntry α)) (now : Nat) : Option α :=
  match e with
  | some entry => if now < entry.expiresAt then some entry.value else none
  | none => none

/-! ### rate_limiting.py -/

/-- Result triple of check_code_attempt_limit. -/
structure AttemptCheck where
  allowed : Bool
  attempts_remaining : Nat
  reset_time : Nat
deriving DecidableEq

/-- Result pair of check_email_rate_limit. -/
structure RateCheck where
  allowed : Bool
  wait_time : Nat
deriving DecidableEq

/-- The per-key counter value stored under code_attempts:{action}:{identifier}. -/
structure AttemptsData where
  count : Nat
  first_attempt : Nat
deriving DecidableEq

/-- check_email_rate_limit (rate_limiting.py lines 10-33).  The state argument
is the cache entry for the key email_rate_limit:{action}:{email}; the function
returns the response and the state after the call.  An allowed call stores the
current time with timeout limit_seconds; a rejected call leaves the entry
untouched. -/
def check_email_rate_limit (st : Option (CacheEntry Nat)) (now : Nat)
    (limit_seconds : Nat) : RateCheck × Option (CacheEntry Nat) :=
  match cacheGet st now with
  | some last_sent =>
    let elapsed := now - last_sent
    if elapsed < limit_seconds then
      (⟨false, limit_seconds - elapsed⟩, st)
    else
      (⟨true, 0⟩, some ⟨now, now + limit_seconds⟩)
  | none => (⟨true, 0⟩, some ⟨now, now + limit_seconds⟩)

/-- check_code_attempt_limit (rate_limiting.py lines 36-65).  Pure read: the
cache entry for code_attempts:{action}:{identifier} is not modified.  The
counter is treated as fresh when missing, and reset when strictly more than
window_minutes * 60 seconds have elapsed since the first recorded failure;
reset_time is computed from the elapsed value read before the reset. -/
def check_code_attempt_limit (st : Option (CacheEntry AttemptsData)) (now : Nat)
    (max_attempts window_minutes : Nat) : AttemptCheck :=
  let attempts_data := (cacheGet st now).getD ⟨0, now⟩
  let elapsed := now - attempts_data.first_attempt
  let attempts_data := if elapsed > window_minutes * 60 then (⟨0, now⟩ : AttemptsData) else attempts_data
  let current_attempts := attempts_data.count
  if current_attempts ≥ max_attempts then
    ⟨false, 0, window_minutes * 60 - elapsed⟩
  else
    ⟨true, max_attempts - current_attempts, 0⟩

/-- increment_failed_attempts (rate_limiting.py lines 68-96).  Returns the
attempts remaining and the new cache entry, stored for the full window. -/
def increment_failed_attempts (st : Option (CacheEntry AttemptsData)) (now : Nat)
    (max_attempts window_minutes : Nat) : Nat × Option (CacheEntry AttemptsData) :=
  let attempts_data := (cacheGet st now).getD ⟨0, now⟩
  let elapsed := now - attempts_data.first_attempt
  let attempts_data :=
    if elapsed > window_minutes * 60 then (⟨1, now⟩ : AttemptsData)
    else (⟨attempts_data.count + 1, attempts_data.first_attempt⟩ : AttemptsData)
  (max_attempts - attempts_data.count, some ⟨attempts_data, now + window_minutes * 60⟩)

/-- clear_failed_attempts (rate_limiting.py lines 99-108): cache.delete. -/
def clear_failed_attempts (_st : Option (CacheEntry AttemptsData)) :
    Option (CacheEntry AttemptsData) :=
  none

/-- The counter state after recording a failure at each time in the list, in
order, starting from an empty cache key. -/
def record_failures (times : List Nat) (max_attempts window_minutes : Nat) :
    Option (CacheEntry AttemptsData) :=
  times.foldl (fun st t => (increment_failed_attempts st t max_attempts window_minutes).2) none

/-! ### config/settings.py: code expiry times, in seconds -/

def EMAIL_VERIFICATION_EXPIRY : Nat := 600
def PASSWORD_RESET_EXPIRY : Nat := 600
def INVITATION_EXPIRY : Nat := 604800

/-! ### authentication/views.py: email verification and password reset

The Django User row is modelled by the fields these views read and write.
Timestamps are Nat seconds; a null column is None. -/

/-- The fields of the User model used by VerifyEmailView and ResetPasswordView. -/
structure AuthUser where
  is_email_verified : Bool
  email_verification_code : Option String
  email_verification_sent_at : Option Nat
  password_reset_code : Option String
  password_reset_sent_at : Option Nat
  password : String
deriving DecidableEq

/-- The state a verification request sees: the (unique) user row for the given
email, if any, plus the per-action failed-attempt counters for that email. -/
structure AuthState where
  user : Option AuthUser
  email_verification_attempts : Option (CacheEntry AttemptsData)
  password_reset_attempts : Option (CacheEntry AttemptsData)
deriving DecidableEq

/-- Outcome of a verify or reset request, by response branch. -/
inductive VerifyOutcome
  | rateLimited (reset_time : Nat)
  | invalidCode
  | expiredCode
  | success
deriving DecidableEq

/-- VerifyEmailView.post (views.py lines 385-429).  The submitted email is the
lookup key for both the user and the counters; a Python falsy stored code
(None or the empty string) fails the match check. -/
def verify_email (st : AuthState) (now : Nat) (code : String) :
    VerifyOutcome × AuthState :=
  let chk := check_code_attempt_limit st.email_verification_attempts now 5 10
  if chk.allowed = false then
    (.rateLimited chk.reset_time, st)
  else
    match st.user with
    | none =>
      (.invalidCode, { st with email_verification_attempts :=
        (increment_failed_attempts st.email_verification_attempts now 5 10).2 })
    | some u =>
      if u.email_verification_code.getD "" = "" ∨ u.email_verification_code ≠ some code then
        (.invalidCode, { st with email_verification_attempts :=
          (increment_failed_attempts st.email_verification_attempts now 5 10).2 })
      else
        let expired : Bool := match u.email_verification_sent_at with
          | some sent_at => decide (now - sent_at > EMAIL_VERIFICATION_EXPIRY)
          | none => false
        if expired then
          (.expiredCode, st)
        else
          (.success, { st with
            user := some { u with
              is_email_verified := true
              email_verification_code := none
              email_verification_sent_at := none }
            email_verification_attempts :=
              clear_failed_attempts st.email_verification_attempts })

/-- ResetPasswordView.post (views.py lines 531-576). -/
def reset_password (st : AuthState) (now : Nat) (code new_password : String) :
    VerifyOutcome × AuthState :=
  let chk := check_code_attempt_limit st.password_reset_attempts now 5 10
  if chk.allowed = false then
    (.rateLimited chk.reset_time, st)
  else
    match st.user with
    | none =>
      (.invalidCode, { st with password_reset_attempts :=
        (increment_failed_attempts st.password_reset_attempts now 5 10).2 })
    | some u =>
      if u.password_reset_code.getD "" = "" ∨ u.password_reset_code ≠ some code then
        (.invalidCode, { st with password_reset_attempts :=
          (increment_failed_attempts st.password_reset_attempts now 5 10).2 })
      else
        let expired : Bool := match u.password_reset_sent_at with
          | some sent_at => decide (now - sent_at > PASSWORD_RESET_EXPIRY)
          | none => false
        if expired then
          (.expiredCode, st)
        else
          (.success, { st with
            user := some { u with
              password := new_password
              password_reset_code := none
              password_reset_sent_at := none }
            password_reset_attempts :=
              clear_failed_attempts st.password_reset_attempts })

/-! ### authentication/views.py: staff and patient invitations -/

/-- account_status choices of the User model. -/
inductive AccountStatus
  | active
  | pending
  | inactive
deriving DecidableEq

/-- The fields of the User model used by StaffSetupAccountView and the
cleanup_expired_codes command. -/
structure StaffUser where
  account_status : AccountStatus
  invitation_code : Option String
  invitation_sent_at : Option Nat
  password : String
  is_2fa_enabled : Bool
deriving DecidableEq

/-- Outcome of an invitation setup request, by response branch. -/
inductive SetupOutcome
  | invalidOrExpiredCode
  | invitationExpired
  | validationError
  | accountExists
  | success
deriving DecidableEq

/-- StaffSetupAccountView.post (views.py lines 616-656).  The database lookup
User.objects.get(invitation_code=code, account_status=pending) is modelled on
the single user row owning the code (invitation_code is a unique column), so a
failed match raises DoesNotExist, the generic invalid-or-expired response. -/
def staff_setup_account (u : StaffUser) (now : Nat) (code password : String) :
    SetupOutcome × StaffUser :=
  if u.invitation_code = some code ∧ u.account_status = .pending then
    let expired : Bool := match u.invitation_sent_at with
      | some sent => decide (now - sent > INVITATION_EXPIRY)
      | none => false
    if expired then
      (.invitationExpired, u)
    else
      (.success, { u with
        account_status := .active
        invitation_code := none
        invitation_sent_at := none
        password := password
        is_2fa_enabled := true })
  else
    (.invalidOrExpiredCode, u)

/-- The fields of the PatientInvite model used by PatientSetupAccountView. -/
structure PatientInviteRec where
  invitation_code : Option String
  is_used : Bool
  expires_at : Nat
deriving DecidableEq

/-- PatientSetupAccountView.post (views.py lines 690-752).  The lookup
PatientInvite.objects.get(invitation_code=code, is_used=False) is modelled on
the single invite owning the (unique) code.  The result records the response
branch, the invite row after the call, and whether a patient User account was
created by the call. -/
def patient_setup_account (inv : PatientInviteRec) (user_exists_for_mobile : Bool)
    (now : Nat) (code password : String) : SetupOutcome × PatientInviteRec × Bool :=
  if code = "" ∨ password = "" then
    (.validationError, inv, false)
  else if password.length < 8 then
    (.validationError, inv, false)
  else if inv.invitation_code = some code ∧ inv.is_used = false then
    if inv.expires_at < now then
      (.invitationExpired, inv, false)
    else if user_exists_for_mobile then
      (.accountExists, inv, false)
    else
      (.success, { inv with is_used := true }, true)
  else
    (.invalidOrExpiredCode, inv, false)

/-- The staff-invitation part of cleanup_expired_codes (Command.handle,
lines 46-58): a pending user whose invitation was sent before
now - INVITATION_EXPIRY is deactivated and loses its code. -/
def cleanup_expired_invitation (u : StaffUser) (now : Nat) : StaffUser :=
  match u.invitation_sent_at with
  | some sent =>
    if u.account_status = .pending ∧ u.invitation_code ≠ none ∧
        sent < now - INVITATION_EXPIRY then
      { u with
        account_status := .inactive
        invitation_code := none
        invitation_sent_at := none }
    else u
  | none => u

/-! ### authentication/views.py: VerifyOTPView -/

/-- The fields of the User model used by VerifyOTPView. -/
structure OtpUser where
  is_2fa_enabled : Bool
  account_status : AccountStatus
  last_otp_sent_at : Option Nat
deriving DecidableEq

/-- Outcome of an OTP verification request, by response branch. -/
inductive OtpOutcome
  | missingFields
  | userNotFound
  | invalidOrExpiredOtp
  | tokensIssued
deriving DecidableEq

/-- VerifyOTPView.post (views.py lines 186-246).  The arguments are the DEBUG
setting, the user row found for the identifier (if any), the cached OTP for
the key otp_2fa_{user.id}, and the submitted fields; the result records the
response branch, the user row after the call and the OTP cache after the call.
When DEBUG is true and the submitted OTP is the literal 123456 the cached OTP
is replaced by 123456 without consulting the cache; a cached empty string is
Python-falsy and never matches. -/
def verify_otp (debug : Bool) (user : Option OtpUser) (cached : Option String)
    (now : Nat) (identifier otp : String) : OtpOutcome × Option OtpUser × Option String :=
  if identifier = "" ∨ otp = "" then
    (.missingFields, user, cached)
  else
    match user with
    | none => (.userNotFound, none, cached)
    | some u =>
      let cached_otp : Option String :=
        if otp = "123456" ∧ debug = true then some "123456" else cached
      let otp_ok : Bool := match cached_otp with
        | some s => decide (s ≠ "" ∧ s = otp)
        | none => false
      if otp_ok then
        let u := if u.is_2fa_enabled then u else
          { u with is_2fa_enabled := true, last_otp_sent_at := some now }
        let u := if u.account_status = .pending then
          { u with account_status := .active } else u
        (.tokensIssued, some u, none)
      else
        (.invalidOrExpiredOtp, some u, cached)

/-! ### patients/ai_service.py: the document ingestion pipeline

External collaborators are passed in as explicit deterministic oracles:
the blob download (s3.download_fileobj), the text extraction stack
(extract_text, whose PyMuPDF and Gemini OCR internals catch their own errors
and fall back to the empty string), the embedding call (which can raise: the
Except models the exception propagated out of _embed_texts), and the LLM
insight call composed with the code-fence stripping and JSON parse of
generate_insights (a parse failure or API error is None).  The bytes type B
and the embedding-vector type E are abstract parameters.  The Endee vector
index for the owning patient is modelled as an association list keyed by the
vector id string, with endee upsert semantics: an existing id is overwritten
in place, a new id is appended. -/

/-- Replace-or-append upsert on an association list, the semantics of both the
Endee vector upsert (keyed by vector id) and Django update_or_create (keyed by
document id). -/
def assocUpsert {α : Type} (s : List (String × α)) (k : String) (v : α) :
    List (String × α) :=
  match s with
  | [] => [(k, v)]
  | (k1, v1) :: rest => if k1 = k then (k, v) :: rest else (k1, v1) :: assocUpsert rest k v

/-- Sequential upsert of a batch; ai_service.py upserts in slices of 100, which
composes to the same sequential fold. -/
def assocUpsertAll {α : Type} (s : List (String × α)) (vs : List (String × α)) :
    List (String × α) :=
  vs.foldl (fun acc kv => assocUpsert acc kv.1 kv.2) s

/-- Keys of an association list. -/
def assocKeys {α : Type} (s : List (String × α)) : List String :=
  s.map (fun kv => kv.1)

/-- First-match lookup in an association list. -/
def assocLookup {α : Type} (s : List (String × α)) (k : String) : Option α :=
  match s with
  | [] => none
  | (k1, v1) :: rest => if k = k1 then some v1 else assocLookup rest k

/-- Value of the last write to key k in a write list, if any. -/
def assocLastVal {α : Type} (vs : List (String × α)) (k : String) : Option α :=
  match vs with
  | [] => none
  | (k1, v1) :: rest =>
    match assocLastVal rest k with
    | some w => some w
    | none => if k = k1 then some v1 else none

/-- The structured insight object parsed from the LLM response and persisted
to PatientDocumentInsight. -/
structure Insight where
  title : String
  summary : String
  key_findings : List String
  risk_flags : List String
  tags : List String
deriving DecidableEq

/-- One vector record in the Endee index: the embedding plus the metadata
written by chunk_and_embed_document (lines 167-181). -/
structure VectorEntry (E : Type) where
  vector : E
  document_id : String
  chunk_index : Nat
  text : String
  title : String
  category : String
deriving DecidableEq

/-- Modelled from the spec: the source (ai_service.py line 156) delegates
chunking to RecursiveCharacterTextSplitter of the external langchain library,
which is not part of this repository; the spec describes the chunking stage as
splitting the extracted text into overlapping fixed-size chunks whose
boundaries are a deterministic function of the text and the parameters, so
successive chunks start chunk_size - chunk_overlap characters apart and each
chunk holds at most chunk_size characters. -/
def split_text (text : String) (chunk_size chunk_overlap : Nat) : List String :=
  let cs := text.toList
  let stride := chunk_size - chunk_overlap
  ((List.range ((cs.length + stride - 1) / stride)).map (fun j => j * stride)).map
    (fun s => String.mk ((cs.drop s).take chunk_size))

/-- The sequential embedding loop _embed_texts (lines 135-148): one embed call
per chunk, an exception anywhere aborts the whole list. -/
def embed_texts {E : Type} (embed : String → Except String E) :
    List String → Except String (List E)
  | [] => .ok []
  | t :: ts =>
    match embed t with
    | .error e => .error e
    | .ok v =>
      match embed_texts embed ts with
      | .error e => .error e
      | .ok vs => .ok (v :: vs)

/-- The deterministic vector id f-string of line 169: {doc_id}_chunk_{i}. -/
def chunk_vector_id (doc_id : String) (i : Nat) : String :=
  doc_id ++ "_chunk_" ++ Nat.repr i

/-- The vector batch built on lines 167-181 from the chunks and embeddings. -/
def chunk_vectors {E : Type} (doc_id title category : String)
    (chunks : List String) (embs : List E) : List (String × VectorEntry E) :=
  (chunks.zip embs).enum.map
    (fun p => (chunk_vector_id doc_id p.1, ⟨p.2.2, doc_id, p.1, p.2.1, title, category⟩))

/-- chunk_and_embed_document (lines 151-195).  Returns the chunk count and the
index after the call.  The surrounding try/except swallows every exception and
returns 0: an embedding failure therefore leaves the index untouched, because
all embeddings are computed before the first upsert. -/
def chunk_and_embed_document {E : Type} (embed : String → Except String E)
    (text doc_id title category : String)
    (store : List (String × VectorEntry E)) : Nat × List (String × VectorEntry E) :=
  let chunks := split_text text 1000 50
  if chunks = [] then (0, store)
  else
    match embed_texts embed chunks with
    | .error _ => (0, store)
    | .ok embs =>
      let vectors := chunk_vectors doc_id title category chunks embs
      (vectors.length, assocUpsertAll store vectors)

/-- Stable-by-construction insertion used to model the Python sorted(...) by
chunk_index on line 217 (any fixed deterministic order works for the
properties proved here). -/
def insertByChunkIndex {E : Type} (x : String × VectorEntry E) :
    List (String × VectorEntry E) → List (String × VectorEntry E)
  | [] => [x]
  | y :: ys =>
    if x.2.chunk_index ≤ y.2.chunk_index then x :: y :: ys else y :: insertByChunkIndex x ys

/-- Sort of the fetched matches by chunk_index (line 217). -/
def sortByChunkIndex {E : Type} :
    List (String × VectorEntry E) → List (String × VectorEntry E)
  | [] => []
  | x :: xs => insertByChunkIndex x (sortByChunkIndex xs)

/-- generate_insights (lines 198-253).  The index query with the zero vector
and the document_id filter is modelled as filtering the index by the tag (the
top_k=200 cap is kept); the fixed prompt template around the first 15000
characters of the reassembled text is absorbed into the llm oracle, which
returns the parsed JSON object or None (API error, empty result or parse
failure, all caught by the try/except). -/
def generate_insights {E : Type} (llm : String → Option Insight)
    (store : List (String × VectorEntry E)) (doc_id : String) : Option Insight :=
  let results := (store.filter (fun kv => kv.2.document_id = doc_id)).take 200
  if results.length = 0 then none
  else
    let sorted_matches := sortByChunkIndex results
    let full_text := String.intercalate "\n" (sorted_matches.map (fun kv => kv.2.text))
    llm (full_text.take 15000)

/-- The fields of the PatientDocument model used by process_document.  The
model has a single boolean processing flag ai_processed (patients/models.py
line 172); there is no separate processing or failed state. -/
structure PDoc where
  id : String
  title : String
  category : String
  file_extension : String
  s3_key : String
  ai_processed : Bool
deriving DecidableEq

/-- The persistent state touched by one pipeline run: the PatientDocument row
(the run operates on the single document it was invoked for), the
PatientDocumentInsight table keyed by document id (update_or_create), and the
patient-scoped Endee index keyed by vector id. -/
structure World (E B : Type) where
  doc : Option PDoc
  insights : List (String × Insight)
  store : List (String × VectorEntry E)
deriving DecidableEq

/-- process_document (lines 256-317).  Oracles: s3get downloads the blob for a
key (an exception reaches the outer handler, which only logs: no state
changes); extract is extract_text, total because its internals catch their own
failures and return the empty string; embed and llm as above.  On the main
path the ai_processed flag is set unconditionally after the insight step,
whether or not generate_insights produced anything. -/
def process_document {E B : Type} (s3get : String → Except String B)
    (extract : B → String → String) (embed : String → Except String E)
    (llm : String → Option Insight) (w : World E B) : World E B :=
  match w.doc with
  | none => w
  | some doc =>
    match s3get doc.s3_key with
    | .error _ => w
    | .ok file_bytes =>
      let text := extract file_bytes doc.file_extension
      if text = "" then w
      else
        let store1 := (chunk_and_embed_document embed text doc.id doc.title doc.category w.store).2
        let insights_data := generate_insights llm store1 doc.id
        let insights1 := match insights_data with
          | some ins => assocUpsert w.insights doc.id ins
          | none => w.insights
        { doc := some { doc with ai_processed := true }
          insights := insights1
          store := store1 }

/-! ## Theorems -/

/-- C6: for every (action, identifier) key, check_email_rate_limit never
returns allowed twice within limit_seconds of an allowed send (the allowed
call stores the current time as the marker, and any call strictly inside the
cooldown is rejected), always returns allowed once limit_seconds have fully
elapsed since the last allowed send, and a rejected call leaves the stored
marker unchanged. -/
theorem check_email_rate_limit_cooldown (st : Option (CacheEntry Nat))
    (t0 t1 limit : Nat) :
    ((check_email_rate_limit st t0 limit).1.allowed = true →
      (check_email_rate_limit st t0 limit).2 = some ⟨t0, t0 + limit⟩)
    ∧ (t0 ≤ t1 → t1 < t0 + limit →
      (check_email_rate_limit (some ⟨t0, t0 + limit⟩) t1 limit).1.allowed = false)
    ∧ (t0 + limit ≤ t1 →
      (check_email_rate_limit (some ⟨t0, t0 + limit⟩) t1 limit).1.allowed = true
        ∧ (check_email_rate_limit (some ⟨t0, t0 + limit⟩) t1 limit).1.wait_time = 0)
    ∧ ((check_email_rate_limit st t1 limit).1.allowed = false →
      (check_email_rate_limit st t1 limit).2 = st) := by
  refine ⟨?_, ?_, ?_, ?_⟩
  · intro h
    rcases hc : cacheGet st t0 with _ | last
    · simp [check_email_rate_limit, hc]
    · simp only [check_email_rate_limit, hc] at h ⊢
      by_cases hlt : t0 - last < limit
      · rw [if_pos hlt] at h
        exact absurd h (by simp)
      · rw [if_neg hlt]
  · intro h1 h2
    have hc : cacheGet (some (⟨t0, t0 + limit⟩ : CacheEntry Nat)) t1 = some t0 := by
      simp [cacheGet, h2]
    simp only [check_email_rate_limit, hc]
    have hlt : t1 - t0 < limit := by omega
    simp [hlt]
  · intro h
    have hc : cacheGet (some (⟨t0, t0 + limit⟩ : CacheEntry Nat)) t1 = none := by
      simp [cacheGet]
      omega
    simp [check_email_rate_limit, hc]
  · intro h
    rcases hc : cacheGet st t1 with _ | last
    · simp only [check_email_rate_limit, hc] at h
      exact absurd h (by simp)
    · simp only [check_email_rate_limit, hc] at h ⊢
      by_cases hlt : t1 - last < limit
      · rw [if_pos hlt]
      · rw [if_neg hlt] at h
        exact absurd h (by simp)

/-- Witness for C6: an allowed send at t=100 with a 60s cooldown stores the
marker, a retry at t=130 is rejected, a retry at t=160 is allowed. -/
theorem check_email_rate_limit_cooldown_witness :
    (check_email_rate_limit none 100 60).2 = some ⟨100, 160⟩
    ∧ (check_email_rate_limit (some ⟨100, 160⟩) 130 60).1.allowed = false
    ∧ (check_email_rate_limit (some ⟨100, 160⟩) 160 60).1.allowed = true :=
  ⟨(check_email_rate_limit_cooldown none 100 130 60).1 (by decide),
   (check_email_rate_limit_cooldown none 100 130 60).2.1 (by decide) (by decide),
   ((check_email_rate_limit_cooldown none 100 160 60).2.2.1 (by decide)).1⟩

/-- Folding further failures at times inside the first failure's window over a
live counter entry keeps the original first_attempt and adds one to the count
per failure; the cache timeout is refreshed from the last failure time, which
is at least the first failure time. -/
lemma record_failures_step (rest : List Nat) (c t0 tprev max_attempts w : Nat)
    (hprev : t0 ≤ tprev)
    (hin : ∀ t ∈ rest, t0 ≤ t ∧ t - t0 < w * 60) :
    ∃ tlast, t0 ≤ tlast ∧
      rest.foldl (fun st t => (increment_failed_attempts st t max_attempts w).2)
          (some ⟨⟨c, t0⟩, tprev + w * 60⟩)
        = some ⟨⟨c + rest.length, t0⟩, tlast + w * 60⟩ := by
  induction rest generalizing c tprev with
  | nil => exact ⟨tprev, hprev, by simp⟩
  | cons t rest ih =>
    have ht := hin t (by simp)
    have hstep : (increment_failed_attempts (some ⟨⟨c, t0⟩, tprev + w * 60⟩) t max_attempts w).2
        = some ⟨⟨c + 1, t0⟩, t + w * 60⟩ := by
      have hlive : t < tprev + w * 60 := by omega
      have hget : cacheGet (some (⟨⟨c, t0⟩, tprev + w * 60⟩ : CacheEntry AttemptsData)) t
          = some ⟨c, t0⟩ := by
        simp [cacheGet, hlive]
      have hwin : ¬ (t - t0 > w * 60) := by omega
      simp [increment_failed_attempts, hget, hwin]
    obtain ⟨tlast, hle, hfold⟩ := ih (c + 1) t ht.1 (fun x hx => hin x (by simp [hx]))
    refine ⟨tlast, hle, ?_⟩
    rw [List.foldl_cons, hstep, hfold]
    have hcount : c + 1 + rest.length = c + (t :: rest).length := by
      simp
      omega
    rw [hcount]

/-- C5: for every (action, identifier) key, after exactly max_attempts
recorded failures whose first failure happened strictly less than the window
ago, check_code_attempt_limit returns allowed=false with attempts_remaining=0
and reset_time strictly positive; and once strictly more than the window has
elapsed since the first failure of the stored counter, it returns
allowed=true again no matter how many failures were recorded.  Time is in
whole seconds; the window is window_minutes * 60 seconds, and the source
resets the counter exactly when elapsed is strictly greater than the window. -/
theorem check_code_attempt_limit_window (t0 : Nat) (rest : List Nat)
    (now max_attempts w : Nat)
    (hmax : 0 < max_attempts)
    (hin : ∀ t ∈ rest, t0 ≤ t ∧ t - t0 < w * 60)
    (hlen : rest.length + 1 = max_attempts)
    (hnow1 : t0 ≤ now) (hnow2 : now - t0 < w * 60) :
    (check_code_attempt_limit (record_failures (t0 :: rest) max_attempts w) now max_attempts w
        = ⟨false, 0, w * 60 - (now - t0)⟩
      ∧ 0 < w * 60 - (now - t0))
    ∧ (∀ (c t1 exp now1 : Nat), now1 < exp → w * 60 < now1 - t1 →
        check_code_attempt_limit (some ⟨⟨c, t1⟩, exp⟩) now1 max_attempts w
          = ⟨true, max_attempts, 0⟩) := by
  constructor
  · have hfirst : (increment_failed_attempts none t0 max_attempts w).2
        = some ⟨⟨1, t0⟩, t0 + w * 60⟩ := by
      simp [increment_failed_attempts, cacheGet]
    obtain ⟨tlast, hle, hfold⟩ :=
      record_failures_step rest 1 t0 t0 max_attempts w (Nat.le_refl t0) hin
    have hstate : record_failures (t0 :: rest) max_attempts w
        = some ⟨⟨max_attempts, t0⟩, tlast + w * 60⟩ := by
      rw [record_failures, List.foldl_cons, hfirst, hfold]
      have hc : 1 + rest.length = max_attempts := by omega
      rw [hc]
    have hget : cacheGet (record_failures (t0 :: rest) max_attempts w) now
        = some ⟨max_attempts, t0⟩ := by
      rw [hstate]
      have hlt : now < tlast + w * 60 := by omega
      simp [cacheGet, hlt]
    have hwin : ¬ (now - t0 > w * 60) := by omega
    refine ⟨?_, by omega⟩
    simp [check_code_attempt_limit, hget, hwin]
  · intro c t1 exp now1 hexp hwin
    have hget : cacheGet (some (⟨⟨c, t1⟩, exp⟩ : CacheEntry AttemptsData)) now1
        = some ⟨c, t1⟩ := by
      simp [cacheGet, hexp]
    have h0 : ¬ (0 ≥ max_attempts) := by omega
    simp [check_code_attempt_limit, hget, hwin, h0]

/-- Witness for C5: five failures at t=0..4 with a 10-minute window block the
key at t=300 with reset_time 300; a counter of 7 failures first recorded at
t=0 answers allowed at t=601. -/
theorem check_code_attempt_limit_window_witness :
    check_code_attempt_limit (record_failures [0, 1, 2, 3, 4] 5 10) 300 5 10
        = ⟨false, 0, 10 * 60 - (300 - 0)⟩
    ∧ check_code_attempt_limit (some ⟨⟨7, 0⟩, 1000⟩) 601 5 10 = ⟨true, 5, 0⟩ :=
  ⟨((check_code_attempt_limit_window 0 [1, 2, 3, 4] 300 5 10 (by decide) (by decide)
      (by decide) (by decide) (by decide)).1).1,
   (check_code_attempt_limit_window 0 [1, 2, 3, 4] 300 5 10 (by decide) (by decide)
      (by decide) (by decide) (by decide)).2 7 0 1000 601 (by decide) (by decide)⟩

/-- A missing attempt counter always passes the 5-attempts / 10-minute check
used by the verification views. -/
lemma check_code_attempt_limit_none (now : Nat) :
    check_code_attempt_limit none now 5 10 = ⟨true, 5, 0⟩ := by
  simp [check_code_attempt_limit, cacheGet]

/-- C3: for each purpose, issuing a code and verifying it successfully before
expiry deletes the stored code immediately (the code column is set to null),
so a second verify with the same code fails with the generic invalid-code
error; verification succeeds exactly once per issued code.  Stated for both
VerifyEmailView (email_verification purpose) and ResetPasswordView
(password_reset purpose). -/
theorem verify_code_single_use (u v : AuthUser)
    (att attP attE attR : Option (CacheEntry AttemptsData))
    (now now2 t s : Nat) (code rcode new_pw : String)
    (hcode : u.email_verification_code = some code) (hne : code ≠ "")
    (hsent : u.email_verification_sent_at = some t)
    (hfresh : now - t ≤ EMAIL_VERIFICATION_EXPIRY)
    (hallow : (check_code_attempt_limit att now 5 10).allowed = true)
    (hrcode : v.password_reset_code = some rcode) (hrne : rcode ≠ "")
    (hrsent : v.password_reset_sent_at = some s)
    (hrfresh : now - s ≤ PASSWORD_RESET_EXPIRY)
    (hrallow : (check_code_attempt_limit attR now 5 10).allowed = true) :
    ((verify_email ⟨some u, att, attP⟩ now code).1 = .success
      ∧ (verify_email ⟨some u, att, attP⟩ now code).2.user
          = some { u with
              is_email_verified := true
              email_verification_code := none
              email_verification_sent_at := none }
      ∧ (verify_email ((verify_email ⟨some u, att, attP⟩ now code).2) now2 code).1
          = .invalidCode)
    ∧ ((reset_password ⟨some v, attE, attR⟩ now rcode new_pw).1 = .success
      ∧ (reset_password ⟨some v, attE, attR⟩ now rcode new_pw).2.user
          = some { v with
              password := new_pw
              password_reset_code := none
              password_reset_sent_at := none }
      ∧ (reset_password ((reset_password ⟨some v, attE, attR⟩ now rcode new_pw).2)
          now2 rcode new_pw).1 = .invalidCode) := by
  have hnotexp : ¬ (now - t > EMAIL_VERIFICATION_EXPIRY) := by omega
  have hrnotexp : ¬ (now - s > PASSWORD_RESET_EXPIRY) := by omega
  have hE : verify_email ⟨some u, att, attP⟩ now code
      = (.success, ⟨some { u with
          is_email_verified := true
          email_verification_code := none
          email_verification_sent_at := none }, none, attP⟩) := by
    simp [verify_email, hallow, hcode, hne, hsent, hnotexp, clear_failed_attempts]
  have hR : reset_password ⟨some v, attE, attR⟩ now rcode new_pw
      = (.success, ⟨some { v with
          password := new_pw
          password_reset_code := none
          password_reset_sent_at := none }, attE, none⟩) := by
    simp [reset_password, hrallow, hrcode, hrne, hrsent, hrnotexp, clear_failed_attempts]
  refine ⟨⟨by rw [hE], by rw [hE], ?_⟩, ⟨by rw [hR], by rw [hR], ?_⟩⟩
  · rw [hE]
    simp [verify_email, check_code_attempt_limit_none]
  · rw [hR]
    simp [reset_password, check_code_attempt_limit_none]

/-- Witness for C3: a concrete verified email code and reset code, each
accepted once and rejected on replay. -/
theorem verify_code_single_use_witness :
    ((verify_email ⟨some ⟨false, some "111111", some 100, none, none, "pw"⟩, none, none⟩
        400 "111111").1 = .success
      ∧ (verify_email ⟨some ⟨false, some "111111", some 100, none, none, "pw"⟩, none, none⟩
          400 "111111").2.user
        = some ⟨true, none, none, none, none, "pw"⟩
      ∧ (verify_email ((verify_email
          ⟨some ⟨false, some "111111", some 100, none, none, "pw"⟩, none, none⟩
          400 "111111").2) 500 "111111").1 = .invalidCode)
    ∧ ((reset_password ⟨some ⟨false, none, none, some "222222", some 100, "pw"⟩, none, none⟩
        400 "222222" "newpassword").1 = .success
      ∧ (reset_password ⟨some ⟨false, none, none, some "222222", some 100, "pw"⟩, none, none⟩
          400 "222222" "newpassword").2.user
        = some ⟨false, none, none, none, none, "newpassword"⟩
      ∧ (reset_password ((reset_password
          ⟨some ⟨false, none, none, some "222222", some 100, "pw"⟩, none, none⟩
          400 "222222" "newpassword").2) 500 "222222" "newpassword").1 = .invalidCode) :=
  verify_code_single_use
    ⟨false, some "111111", some 100, none, none, "pw"⟩
    ⟨false, none, none, some "222222", some 100, "pw"⟩
    none none none none 400 500 100 100 "111111" "222222" "newpassword"
    rfl (by decide) rfl (by decide) (by decide)
    rfl (by decide) rfl (by decide) (by decide)

/-- C4: a verify submitted strictly more than the configured expiry after
issuance returns the expired-code error even though the submitted code value
matches the stored code, for both the email verification flow
(EMAIL_VERIFICATION_EXPIRY) and the password reset flow
(PASSWORD_RESET_EXPIRY); the request leaves the state unchanged. -/
theorem verify_code_expired (u v : AuthUser)
    (att attP attE attR : Option (CacheEntry AttemptsData))
    (now t s : Nat) (code rcode new_pw : String)
    (hcode : u.email_verification_code = some code) (hne : code ≠ "")
    (hsent : u.email_verification_sent_at = some t)
    (hexp : EMAIL_VERIFICATION_EXPIRY < now - t)
    (hallow : (check_code_attempt_limit att now 5 10).allowed = true)
    (hrcode : v.password_reset_code = some rcode) (hrne : rcode ≠ "")
    (hrsent : v.password_reset_sent_at = some s)
    (hrexp : PASSWORD_RESET_EXPIRY < now - s)
    (hrallow : (check_code_attempt_limit attR now 5 10).allowed = true) :
    verify_email ⟨some u, att, attP⟩ now code = (.expiredCode, ⟨some u, att, attP⟩)
    ∧ reset_password ⟨some v, attE, attR⟩ now rcode new_pw
        = (.expiredCode, ⟨some v, attE, attR⟩) := by
  constructor
  · simp [verify_email, hallow, hcode, hne, hsent, hexp]
  · simp [reset_password, hrallow, hrcode, hrne, hrsent, hrexp]

/-- Witness for C4: codes issued at t=0 and submitted with matching values at
t=601, one second past the 600-second expiry, are rejected as expired. -/
theorem verify_code_expired_witness :
    verify_email ⟨some ⟨false, some "111111", some 0, none, none, "pw"⟩, none, none⟩
        601 "111111"
      = (.expiredCode, ⟨some ⟨false, some "111111", some 0, none, none, "pw"⟩, none, none⟩)
    ∧ reset_password ⟨some ⟨false, none, none, some "222222", some 0, "pw"⟩, none, none⟩
        601 "222222" "newpassword"
      = (.expiredCode, ⟨some ⟨false, none, none, some "222222", some 0, "pw"⟩, none, none⟩) :=
  verify_code_expired
    ⟨false, some "111111", some 0, none, none, "pw"⟩
    ⟨false, none, none, some "222222", some 0, "pw"⟩
    none none none none 601 0 0 "111111" "222222" "newpassword"
    rfl (by decide) rfl (by decide) (by decide)
    rfl (by decide) rfl (by decide) (by decide)

/-- A staff user whose invitation_code column is null never matches a setup
lookup: the request gets the generic invalid-or-expired error and nothing
changes. -/
lemma staff_setup_account_no_code (x : StaffUser) (hx : x.invitation_code = none)
    (n : Nat) (cd p : String) :
    staff_setup_account x n cd p = (.invalidOrExpiredCode, x) := by
  simp [staff_setup_account, hx]

/-- A successful staff setup activates the account and clears the code. -/
lemma staff_setup_account_success (u : StaffUser) (now : Nat) (code pw : String)
    (h : (staff_setup_account u now code pw).1 = .success) :
    (staff_setup_account u now code pw).2
      = { u with
          account_status := .active
          invitation_code := none
          invitation_sent_at := none
          password := pw
          is_2fa_enabled := true } := by
  by_cases hm : u.invitation_code = some code ∧ u.account_status = .pending
  · rcases hs : u.invitation_sent_at with _ | ts
    · simp [staff_setup_account, hm, hs]
    · by_cases hx : now - ts > INVITATION_EXPIRY
      · simp [staff_setup_account, hm, hs, hx] at h
      · simp [staff_setup_account, hm, hs, hx]
  · simp [staff_setup_account, hm] at h

/-- C9: invitation tokens are single-use and expire.  A successful staff setup
clears the invitation code and activates the account, after which any further
setup request (any code, any time) gets the generic invalid-or-expired error
and changes nothing; an expired staff invitation never authenticates and
changes nothing; after the cleanup command deactivates an expired staff
invitation, setup requests get the generic error; a successful patient setup
flags the invite used, after which replaying the same code gets the generic
error and creates no account; an expired patient invite never authenticates,
is not consumed, and creates no account. -/
theorem invitation_single_use (u : StaffUser) (inv : PatientInviteRec)
    (ex ex2 : Bool) (now now2 tsent : Nat) (c code pw pw2 code2 : String)
    (hpw2 : 8 ≤ pw2.length) (hpw2ne : pw2 ≠ "") :
    ((staff_setup_account u now code pw).1 = .success →
      (staff_setup_account u now code pw).2.invitation_code = none
      ∧ (staff_setup_account u now code pw).2.account_status = .active
      ∧ staff_setup_account ((staff_setup_account u now code pw).2) now2 code2 pw2
          = (.invalidOrExpiredCode, (staff_setup_account u now code pw).2))
    ∧ (u.invitation_sent_at = some tsent → INVITATION_EXPIRY < now - tsent →
      (staff_setup_account u now code pw).1 ≠ .success
      ∧ (staff_setup_account u now code pw).2 = u)
    ∧ (u.account_status = .pending → u.invitation_code = some c →
      u.invitation_sent_at = some tsent → tsent < now - INVITATION_EXPIRY →
      staff_setup_account (cleanup_expired_invitation u now) now2 code2 pw2
        = (.invalidOrExpiredCode, cleanup_expired_invitation u now))
    ∧ ((patient_setup_account inv ex now code pw).1 = .success →
      (patient_setup_account inv ex now code pw).2.1.is_used = true
      ∧ (patient_setup_account (patient_setup_account inv ex now code pw).2.1 ex2 now2 code pw2).1
          = .invalidOrExpiredCode
      ∧ (patient_setup_account (patient_setup_account inv ex now code pw).2.1 ex2 now2 code pw2).2.2
          = false)
    ∧ (inv.expires_at < now →
      (patient_setup_account inv ex now code pw).1 ≠ .success
      ∧ (patient_setup_account inv ex now code pw).2.1 = inv
      ∧ (patient_setup_account inv ex now code pw).2.2 = false) := by
  refine ⟨?_, ?_, ?_, ?_, ?_⟩
  · intro h
    have h2 := staff_setup_account_success u now code pw h
    rw [h2]
    refine ⟨rfl, rfl, ?_⟩
    exact staff_setup_account_no_code _ rfl now2 code2 pw2
  · intro hs hx
    by_cases hm : u.invitation_code = some code ∧ u.account_status = .pending
    · have hexp : now - tsent > INVITATION_EXPIRY := hx
      simp [staff_setup_account, hm, hs, hexp]
    · simp [staff_setup_account, hm]
  · intro hp hc hs hcut
    have hclean : cleanup_expired_invitation u now
        = { u with
            account_status := .inactive
            invitation_code := none
            invitation_sent_at := none } := by
      simp [cleanup_expired_invitation, hs, hp, hc, hcut]
    rw [hclean]
    exact staff_setup_account_no_code _ rfl now2 code2 pw2
  · intro h
    by_cases hv : code = "" ∨ pw = ""
    · simp [patient_setup_account, hv] at h
    · by_cases hl : pw.length < 8
      · simp [patient_setup_account, hv, hl] at h
      · by_cases hm : inv.invitation_code = some code ∧ inv.is_used = false
        · by_cases hx : inv.expires_at < now
          · simp [patient_setup_account, hv, hl, hm, hx] at h
          · by_cases he : ex = true
            · simp [patient_setup_account, hv, hl, hm, hx, he] at h
            · have hres : (patient_setup_account inv ex now code pw).2.1
                  = { inv with is_used := true } := by
                simp [patient_setup_account, hv, hl, hm, hx, he]
              rw [hres]
              have hcne : ¬ (code = "" ∨ pw2 = "") := by
                push_neg
                exact ⟨fun hcc => hv (Or.inl hcc), hpw2ne⟩
              have hl2 : ¬ (pw2.length < 8) := by omega
              refine ⟨rfl, ?_, ?_⟩
              · simp [patient_setup_account, hcne, hl2]
              · simp [patient_setup_account, hcne, hl2]
        · simp [patient_setup_account, hv, hl, hm] at h
  · intro hx
    by_cases hv : code = "" ∨ pw = ""
    · simp [patient_setup_account, hv]
    · by_cases hl : pw.length < 8
      · simp [patient_setup_account, hv, hl]
      · by_cases hm : inv.invitation_code = some code ∧ inv.is_used = false
        · simp [patient_setup_account, hv, hl, hm, hx]
        · simp [patient_setup_account, hv, hl, hm]

/-- Witness for C9: a pending staff user completes setup with code SC, which
clears the code, and a replay gets the generic error; a patient invite with
the same code string is consumed by setup and a replay gets the generic error
without creating an account. -/
theorem invitation_single_use_witness :
    ((staff_setup_account ⟨.pending, some "SC", some 100, "old", false⟩
        200 "SC" "newpass123").2.invitation_code = none
      ∧ (staff_setup_account ⟨.pending, some "SC", some 100, "old", false⟩
          200 "SC" "newpass123").2.account_status = .active
      ∧ staff_setup_account ((staff_setup_account ⟨.pending, some "SC", some 100, "old", false⟩
            200 "SC" "newpass123").2) 300 "x" "newpass123"
          = (.invalidOrExpiredCode,
            (staff_setup_account ⟨.pending, some "SC", some 100, "old", false⟩
              200 "SC" "newpass123").2))
    ∧ ((patient_setup_account ⟨some "SC", false, 1000⟩ false 200 "SC" "newpass123").2.1.is_used
        = true
      ∧ (patient_setup_account
          (patient_setup_account ⟨some "SC", false, 1000⟩ false 200 "SC" "newpass123").2.1
          false 300 "SC" "newpass123").1 = .invalidOrExpiredCode
      ∧ (patient_setup_account
          (patient_setup_account ⟨some "SC", false, 1000⟩ false 200 "SC" "newpass123").2.1
          false 300 "SC" "newpass123").2.2 = false) :=
  ⟨(invitation_single_use ⟨.pending, some "SC", some 100, "old", false⟩ ⟨some "SC", false, 1000⟩
      false false 200 300 100 "SC" "SC" "newpass123" "newpass123" "x"
      (by decide) (by decide)).1 (by decide),
   (invitation_single_use ⟨.pending, some "SC", some 100, "old", false⟩ ⟨some "SC", false, 1000⟩
      false false 200 300 100 "SC" "SC" "newpass123" "newpass123" "x"
      (by decide) (by decide)).2.2.2.1 (by decide)⟩

/-- C10: when DEBUG is true, VerifyOTPView accepts the fixed code 123456 for
every existing user and issues login tokens, regardless of what OTP (if any)
is stored in the cache for that user; with DEBUG false and no stored OTP the
same submission is rejected. -/
theorem verify_otp_debug_bypass (u : OtpUser) (cached : Option String)
    (now : Nat) (identifier : String) (hid : identifier ≠ "") :
    (verify_otp true (some u) cached now identifier "123456").1 = .tokensIssued
    ∧ (verify_otp false (some u) none now identifier "123456").1
        = .invalidOrExpiredOtp := by
  constructor
  · simp [verify_otp, hid]
  · simp [verify_otp, hid]

/-- Witness for C10: a user with a different stored OTP still gets tokens for
123456 under DEBUG. -/
theorem verify_otp_debug_bypass_witness :
    (verify_otp true (some ⟨false, .active, none⟩) (some "654321") 50 "9990001111" "123456").1
      = .tokensIssued :=
  (verify_otp_debug_bypass ⟨false, .active, none⟩ (some "654321") 50 "9990001111" (by decide)).1

/-- C8: for an extracted text of exactly 2500 characters, chunking with
chunk_size=1000 and overlap=50 produces exactly 3 chunks, and chunk 2 starts
950 characters after the start of chunk 1 (and chunk 3 starts 950 after chunk
2); the boundaries depend only on the text and the parameters, split_text
being a function of exactly those.  Chunking is modelled from the spec, see
split_text. -/
theorem split_text_2500_chunks (t : String) (ht : t.toList.length = 2500) :
    split_text t 1000 50
      = [String.mk (t.toList.take 1000),
         String.mk ((t.toList.drop 950).take 1000),
         String.mk ((t.toList.drop 1900).take 1000)]
    ∧ (split_text t 1000 50).length = 3 := by
  have h1 : (t.toList.length + (1000 - 50) - 1) / (1000 - 50) = 3 := by
    rw [ht]
  have h2 : List.range 3 = [0, 1, 2] := by decide
  have hmain : split_text t 1000 50
      = [String.mk (t.toList.take 1000),
         String.mk ((t.toList.drop 950).take 1000),
         String.mk ((t.toList.drop 1900).take 1000)] := by
    simp only [split_text, h1, h2, List.map_cons, List.map_nil, List.drop_zero]
    norm_num
  exact ⟨hmain, by rw [hmain]; rfl⟩

/-- Witness for C8 on the 2500-character text aaa...a. -/
theorem split_text_2500_chunks_witness :
    (String.mk (List.replicate 2500 'a')).toList.length = 2500
    ∧ (split_text (String.mk (List.replicate 2500 'a')) 1000 50).length = 3 :=
  ⟨by rw [show (String.mk (List.replicate 2500 'a')).toList = List.replicate 2500 'a' from rfl,
      List.length_replicate],
   (split_text_2500_chunks (String.mk (List.replicate 2500 'a'))
     (by rw [show (String.mk (List.replicate 2500 'a')).toList = List.replicate 2500 'a' from rfl,
        List.length_replicate])).2⟩

/-! ### Association-list lemmas for upsert semantics -/

/-- Looking up the upserted key finds the new value; other keys are
unaffected. -/
lemma assocLookup_upsert {α : Type} (s : List (String × α)) (k k1 : String) (v : α) :
    assocLookup (assocUpsert s k v) k1 = if k1 = k then some v else assocLookup s k1 := by
  induction s with
  | nil => simp [assocUpsert, assocLookup]
  | cons p rest ih =>
    obtain ⟨k2, v2⟩ := p
    by_cases h2 : k2 = k
    · subst h2
      by_cases h1 : k1 = k2 <;> simp [assocUpsert, assocLookup, h1]
    · by_cases h1 : k1 = k2
      · subst h1
        simp [assocUpsert, assocLookup, h2]
      · simp [assocUpsert, assocLookup, h2, h1, ih]

/-- Upsert replaces in place when the key is present and appends otherwise. -/
lemma assocKeys_upsert {α : Type} (s : List (String × α)) (k : String) (v : α) :
    assocKeys (assocUpsert s k v)
      = if k ∈ assocKeys s then assocKeys s else assocKeys s ++ [k] := by
  induction s with
  | nil => simp [assocUpsert, assocKeys]
  | cons p rest ih =>
    obtain ⟨k2, v2⟩ := p
    by_cases h2 : k2 = k
    · subst h2
      simp [assocUpsert, assocKeys]
    · have hne : k ≠ k2 := fun hh => h2 hh.symm
      have hcons : assocUpsert ((k2, v2) :: rest) k v = (k2, v2) :: assocUpsert rest k v := by
        simp [assocUpsert, h2]
      rw [hcons]
      have hkeys : assocKeys ((k2, v2) :: assocUpsert rest k v)
          = k2 :: assocKeys (assocUpsert rest k v) := rfl
      rw [hkeys, ih]
      have hmem : k ∈ assocKeys ((k2, v2) :: rest) ↔ k = k2 ∨ k ∈ assocKeys rest := by
        simp [assocKeys]
      by_cases hm : k ∈ assocKeys rest
      · rw [if_pos hm, if_pos (hmem.mpr (Or.inr hm))]
        rfl
      · rw [if_neg hm, if_neg (fun hin => by
          rcases hmem.mp hin with h | h
          · exact hne h
          · exact hm h)]
        rfl

/-- Upsert preserves key distinctness. -/
lemma assocKeys_upsert_nodup {α : Type} (s : List (String × α)) (k : String) (v : α)
    (h : (assocKeys s).Nodup) : (assocKeys (assocUpsert s k v)).Nodup := by
  rw [assocKeys_upsert]
  by_cases hm : k ∈ assocKeys s
  · simpa [hm] using h
  · rw [if_neg hm, ← List.concat_eq_append]
    exact h.concat hm

/-- A key absent from an association list looks up to none. -/
lemma assocLookup_eq_none {α : Type} (s : List (String × α)) (k : String)
    (h : k ∉ assocKeys s) : assocLookup s k = none := by
  induction s with
  | nil => rfl
  | cons p rest ih =>
    obtain ⟨k2, v2⟩ := p
    simp only [assocKeys, List.map_cons, List.mem_cons] at h
    push_neg at h
    exact by simp [assocLookup, h.1, ih h.2]

/-- Lookup after a batch of upserts: the last write to the key wins, else the
original binding shows through. -/
lemma assocLookup_upsertAll {α : Type} (vs s : List (String × α)) (k : String) :
    assocLookup (assocUpsertAll s vs) k
      = match assocLastVal vs k with
        | some w => some w
        | none => assocLookup s k := by
  induction vs generalizing s with
  | nil => simp [assocUpsertAll, assocLastVal]
  | cons p rest ih =>
    obtain ⟨k2, v2⟩ := p
    simp only [assocUpsertAll, List.foldl_cons] at ih ⊢
    rw [ih (assocUpsert s k2 v2)]
    rcases hl : assocLastVal rest k with _ | wv
    · by_cases hk : k = k2
      · subst hk
        simp [assocLastVal, hl, assocLookup_upsert]
      · simp [assocLastVal, hl, assocLookup_upsert, hk]
    · simp [assocLastVal, hl]

/-- Keys after a batch of upserts are the old keys plus the batch keys. -/
lemma mem_assocKeys_upsertAll {α : Type} (vs s : List (String × α)) (k : String) :
    k ∈ assocKeys (assocUpsertAll s vs)
      ↔ k ∈ assocKeys s ∨ k ∈ vs.map (fun kv => kv.1) := by
  induction vs generalizing s with
  | nil => simp [assocUpsertAll]
  | cons p rest ih =>
    simp only [assocUpsertAll, List.foldl_cons] at ih ⊢
    rw [ih]
    rw [assocKeys_upsert]
    by_cases hm : p.1 ∈ assocKeys s
    · simp only [if_pos hm, List.map_cons, List.mem_cons]
      constructor
      · tauto
      · rintro (h | h | h)
        · exact Or.inl h
        · subst h
          exact Or.inl hm
        · exact Or.inr h
    · simp only [if_neg hm, List.map_cons, List.mem_cons, List.mem_append,
        List.mem_singleton]
      tauto

/-- A batch whose keys are all already present does not change the key list. -/
lemma assocKeys_upsertAll_of_mem {α : Type} (vs s : List (String × α))
    (h : ∀ kv ∈ vs, kv.1 ∈ assocKeys s) :
    assocKeys (assocUpsertAll s vs) = assocKeys s := by
  induction vs generalizing s with
  | nil => simp [assocUpsertAll]
  | cons p rest ih =>
    simp only [assocUpsertAll, List.foldl_cons]
    have h1 : p.1 ∈ assocKeys s := h p (by simp)
    have hk : assocKeys (assocUpsert s p.1 p.2) = assocKeys s := by
      rw [assocKeys_upsert, if_pos h1]
    have hsub : ∀ kv ∈ rest, kv.1 ∈ assocKeys (assocUpsert s p.1 p.2) := by
      intro kv hkv
      rw [hk]
      exact h kv (by simp [hkv])
    have := ih (assocUpsert s p.1 p.2) hsub
    simpa [assocUpsertAll, hk] using this

/-- Batched upsert preserves key distinctness. -/
lemma assocKeys_upsertAll_nodup {α : Type} (vs s : List (String × α))
    (h : (assocKeys s).Nodup) : (assocKeys (assocUpsertAll s vs)).Nodup := by
  induction vs generalizing s with
  | nil => simpa [assocUpsertAll] using h
  | cons p rest ih =>
    simp only [assocUpsertAll, List.foldl_cons]
    exact ih _ (assocKeys_upsert_nodup _ _ _ h)

/-- Association lists with distinct keys are determined by their key list and
their lookup function. -/
lemma assoc_ext {α : Type} (s : List (String × α)) :
    ∀ (t : List (String × α)), (assocKeys s).Nodup → (assocKeys t).Nodup →
      assocKeys s = assocKeys t → (∀ k, assocLookup s k = assocLookup t k) → s = t := by
  induction s with
  | nil =>
    intro t _ _ hk _
    cases t with
    | nil => rfl
    | cons q t => simp [assocKeys] at hk
  | cons p s ih =>
    intro t hs ht hk hl
    cases t with
    | nil => simp [assocKeys] at hk
    | cons q t =>
      obtain ⟨k1, v1⟩ := p
      obtain ⟨k2, v2⟩ := q
      simp only [assocKeys, List.map_cons, List.cons.injEq] at hk
      obtain ⟨hk12, hkrest⟩ := hk
      subst hk12
      simp only [assocKeys, List.map_cons, List.nodup_cons] at hs ht
      have hv : v1 = v2 := by
        have h1 := hl k1
        simp [assocLookup] at h1
        exact h1
      subst hv
      have hrest : ∀ k, assocLookup s k = assocLookup t k := by
        intro k
        by_cases hkk : k = k1
        · subst hkk
          rw [assocLookup_eq_none s k (by simpa [assocKeys] using hs.1),
            assocLookup_eq_none t k (by simpa [assocKeys] using ht.1)]
        · have h1 := hl k
          simpa [assocLookup, hkk] using h1
      rw [ih t hs.2 ht.2 (by simpa [assocKeys] using hkrest) hrest]

/-- Re-upserting the same key with the same value is a no-op. -/
lemma assocUpsert_idem {α : Type} (s : List (String × α)) (k : String) (v : α) :
    assocUpsert (assocUpsert s k v) k v = assocUpsert s k v := by
  induction s with
  | nil => simp [assocUpsert]
  | cons p rest ih =>
    obtain ⟨k2, v2⟩ := p
    by_cases h2 : k2 = k
    · subst h2
      simp [assocUpsert]
    · simp [assocUpsert, h2, ih]

/-- Applying the same batch of upserts twice equals applying it once, when the
starting keys are distinct: every key written by the batch is present after
the first pass, so the second pass only rewrites each key to the same final
value. -/
lemma assocUpsertAll_twice {α : Type} (vs s : List (String × α))
    (h : (assocKeys s).Nodup) :
    assocUpsertAll (assocUpsertAll s vs) vs = assocUpsertAll s vs := by
  have h1 : (assocKeys (assocUpsertAll s vs)).Nodup := assocKeys_upsertAll_nodup vs s h
  have h2 : (assocKeys (assocUpsertAll (assocUpsertAll s vs) vs)).Nodup :=
    assocKeys_upsertAll_nodup vs _ h1
  apply assoc_ext _ _ h2 h1
  · apply assocKeys_upsertAll_of_mem
    intro kv hkv
    exact (mem_assocKeys_upsertAll vs s kv.1).mpr
      (Or.inr (List.mem_map_of_mem (fun kv => kv.1) hkv))
  · intro k
    rw [assocLookup_upsertAll, assocLookup_upsertAll]
    rcases hl : assocLastVal vs k with _ | wv
    · simp [hl]
    · simp [hl]

/-- A key that is absent is counted zero times. -/
lemma assoc_countP_eq_zero {α : Type} (s : List (String × α)) (k : String)
    (h : k ∉ assocKeys s) :
    s.countP (fun kv => decide (kv.1 = k)) = 0 := by
  induction s with
  | nil => rfl
  | cons p rest ih =>
    obtain ⟨k2, v2⟩ := p
    simp only [assocKeys, List.map_cons, List.mem_cons] at h
    push_neg at h
    have h1 : ¬ (k2 = k) := fun hh => h.1 hh.symm
    simp [List.countP_cons, h1, ih (by simpa [assocKeys] using h.2)]

/-- After an upsert into a list with distinct keys, the upserted key is bound
exactly once. -/
lemma assoc_countP_upsert {α : Type} (s : List (String × α)) (k : String) (v : α)
    (h : (assocKeys s).Nodup) :
    (assocUpsert s k v).countP (fun kv => decide (kv.1 = k)) = 1 := by
  induction s with
  | nil => simp [assocUpsert]
  | cons p rest ih =>
    obtain ⟨k2, v2⟩ := p
    have hh : k2 ∉ assocKeys rest ∧ (assocKeys rest).Nodup := by
      simpa [assocKeys] using h
    by_cases h2 : k2 = k
    · subst h2
      have h0 : rest.countP (fun kv => decide (kv.1 = k2)) = 0 :=
        assoc_countP_eq_zero rest k2 hh.1
    
      simp [assocUpsert, List.countP_cons, h0]
    · simp [assocUpsert, List.countP_cons, h2, ih hh.2]

/-! ### Pipeline behaviour -/

/-- generate_insights returns None whenever the llm/parse oracle does. -/
lemma generate_insights_llm_none {E : Type} (llm : String → Option Insight)
    (store : List (String × VectorEntry E)) (doc_id : String)
    (hllm : ∀ s, llm s = none) :
    generate_insights llm store doc_id = none := by
  simp only [generate_insights]
  split
  · rfl
  · exact hllm _

/-- chunk_and_embed_document leaves the index untouched when the embedding
call raises: the exception is caught and 0 is returned. -/
lemma chunk_and_embed_document_error {E : Type} (embed : String → Except String E)
    (text doc_id title category : String) (store : List (String × VectorEntry E))
    (e : String)
    (hembed : embed_texts embed (split_text text 1000 50) = .error e) :
    chunk_and_embed_document embed text doc_id title category store = (0, store) := by
  simp only [chunk_and_embed_document]
  split
  · rfl
  · rw [hembed]

/-- Unfolding of process_document on its main path: document found, blob
downloaded, text extracted nonempty. -/
lemma process_document_main {E B : Type} (s3get : String → Except String B)
    (extract : B → String → String) (embed : String → Except String E)
    (llm : String → Option Insight) (w : World E B) (d : PDoc) (b : B)
    (hdoc : w.doc = some d) (hs3 : s3get d.s3_key = Except.ok b)
    (htext : extract b d.file_extension ≠ "") :
    process_document s3get extract embed llm w
      = { doc := some { d with ai_processed := true }
          insights :=
            match generate_insights llm
                (chunk_and_embed_document embed (extract b d.file_extension)
                  d.id d.title d.category w.store).2 d.id with
            | some ins => assocUpsert w.insights d.id ins
            | none => w.insights
          store := (chunk_and_embed_document embed (extract b d.file_extension)
            d.id d.title d.category w.store).2 } := by
  simp only [process_document, hdoc, hs3]
  rw [if_neg htext]

/-- C1 (amended): when generate_insights returns no parsed object, no insight
record is persisted (the insight table is unchanged) — but the document is
nonetheless marked processed: process_document sets ai_processed
unconditionally after the insight step, because generate_insights swallows
its own exceptions and returns None instead of raising. -/
theorem process_document_insight_failure {E B : Type}
    (s3get : String → Except String B) (extract : B → String → String)
    (embed : String → Except String E) (llm : String → Option Insight)
    (w : World E B) (d : PDoc) (b : B)
    (hdoc : w.doc = some d) (hs3 : s3get d.s3_key = Except.ok b)
    (htext : extract b d.file_extension ≠ "")
    (hllm : ∀ s, llm s = none) :
    (process_document s3get extract embed llm w).insights = w.insights
    ∧ (process_document s3get extract embed llm w).doc
        = some { d with ai_processed := true } := by
  rw [process_document_main s3get extract embed llm w d b hdoc hs3 htext]
  rw [generate_insights_llm_none llm _ d.id hllm]
  exact ⟨rfl, rfl⟩

/-- C1 counterexample: a concrete run in which insight generation fails (the
llm oracle returns None), so no insight is persisted — yet the final world has
ai_processed = true, refuting the claim that the processing flag is not set
when the insight step fails. -/
theorem process_document_insight_failure_cex :
    process_document (fun _ => Except.ok ()) (fun _ _ => "sampletext")
        (fun _ => Except.ok ()) (fun _ => none)
        (⟨some ⟨"d1", "T", "Lab", "pdf", "k", false⟩, [], []⟩ : World Unit Unit)
      = ⟨some ⟨"d1", "T", "Lab", "pdf", "k", true⟩, [],
          [("d1_chunk_0", ⟨(), "d1", 0, "sampletext", "T", "Lab"⟩)]⟩ := by
  decide

/-- Witness for the amended C1 at the counterexample input. -/
theorem process_document_insight_failure_witness :
    (process_document (fun _ => Except.ok ()) (fun _ _ => "sampletext")
        (fun _ => Except.ok ()) (fun _ => none)
        (⟨some ⟨"d1", "T", "Lab", "pdf", "k", false⟩, [], []⟩ : World Unit Unit)).insights = []
    ∧ (process_document (fun _ => Except.ok ()) (fun _ _ => "sampletext")
        (fun _ => Except.ok ()) (fun _ => none)
        (⟨some ⟨"d1", "T", "Lab", "pdf", "k", false⟩, [], []⟩ : World Unit Unit)).doc
      = some ⟨"d1", "T", "Lab", "pdf", "k", true⟩ :=
  process_document_insight_failure (fun _ => Except.ok ()) (fun _ _ => "sampletext")
    (fun _ => Except.ok ()) (fun _ => none)
    ⟨some ⟨"d1", "T", "Lab", "pdf", "k", false⟩, [], []⟩
    ⟨"d1", "T", "Lab", "pdf", "k", false⟩ ()
    rfl rfl (by decide) (fun _ => rfl)

/-- C2 (amended): when the embedding stage raises, no vectors from the run are
upserted under the document — the index is left exactly as it was, because all
embeddings are computed before the first upsert and the exception is caught
inside chunk_and_embed_document — but the pipeline does not abort: the
document still ends marked processed (ai_processed = true).  The model has no
failed state at all. -/
theorem process_document_embed_failure {E B : Type}
    (s3get : String → Except String B) (extract : B → String → String)
    (embed : String → Except String E) (llm : String → Option Insight)
    (w : World E B) (d : PDoc) (b : B) (e : String)
    (hdoc : w.doc = some d) (hs3 : s3get d.s3_key = Except.ok b)
    (htext : extract b d.file_extension ≠ "")
    (hembed : embed_texts embed (split_text (extract b d.file_extension) 1000 50)
      = .error e) :
    (process_document s3get extract embed llm w).store = w.store
    ∧ (process_document s3get extract embed llm w).doc
        = some { d with ai_processed := true } := by
  rw [process_document_main s3get extract embed llm w d b hdoc hs3 htext]
  rw [chunk_and_embed_document_error embed _ d.id d.title d.category w.store e hembed]
  exact ⟨rfl, rfl⟩

/-- C2 counterexample: a concrete run in which the embedding call raises; no
vector is upserted (the index stays empty), but the final world has
ai_processed = true, refuting the claim that the document ends in a failed,
not processed, state. -/
theorem process_document_embed_failure_cex :
    process_document (fun _ => Except.ok ()) (fun _ _ => "sampletext")
        (fun _ => (Except.error "embedding api error" : Except String Unit))
        (fun _ => none)
        (⟨some ⟨"d1", "T", "Lab", "pdf", "k", false⟩, [], []⟩ : World Unit Unit)
      = ⟨some ⟨"d1", "T", "Lab", "pdf", "k", true⟩, [], []⟩ := by
  decide

/-- Witness for the amended C2 at the counterexample input. -/
theorem process_document_embed_failure_witness :
    (process_document (fun _ => Except.ok ()) (fun _ _ => "sampletext")
        (fun _ => (Except.error "embedding api error" : Except String Unit))
        (fun _ => none)
        (⟨some ⟨"d1", "T", "Lab", "pdf", "k", false⟩, [], []⟩ : World Unit Unit)).store = []
    ∧ (process_document (fun _ => Except.ok ()) (fun _ _ => "sampletext")
        (fun _ => (Except.error "embedding api error" : Except String Unit))
        (fun _ => none)
        (⟨some ⟨"d1", "T", "Lab", "pdf", "k", false⟩, [], []⟩ : World Unit Unit)).doc
      = some ⟨"d1", "T", "Lab", "pdf", "k", true⟩ :=
  process_document_embed_failure (fun _ => Except.ok ()) (fun _ _ => "sampletext")
    (fun _ => (Except.error "embedding api error" : Except String Unit)) (fun _ => none)
    ⟨some ⟨"d1", "T", "Lab", "pdf", "k", false⟩, [], []⟩
    ⟨"d1", "T", "Lab", "pdf", "k", false⟩ () "embedding api error"
    rfl rfl (by decide) rfl

/-- Unfolding of chunk_and_embed_document when chunks exist and every
embedding call succeeds. -/
lemma chunk_and_embed_document_ok {E : Type} (embed : String → Except String E)
    (text doc_id title category : String) (store : List (String × VectorEntry E))
    (embs : List E)
    (hne : ¬ (split_text text 1000 50 = []))
    (hemb : embed_texts embed (split_text text 1000 50) = .ok embs) :
    chunk_and_embed_document embed text doc_id title category store
      = ((chunk_vectors doc_id title category (split_text text 1000 50) embs).length,
         assocUpsertAll store
           (chunk_vectors doc_id title category (split_text text 1000 50) embs)) := by
  simp only [chunk_and_embed_document]
  rw [if_neg hne, hemb]

/-- C7: the ingestion pipeline is idempotent on a world with well-formed
stores.  Running process_document twice with the same (deterministic) oracles
yields exactly the same final world as running it once: the chunk vectors are
re-upserted under the same deterministic ids {doc_id}_chunk_{i} and overwrite
in place rather than append, the reassembled text and hence the insight
content are the same, and the insight is replaced wholesale keyed by document
id (update_or_create); moreover after a run whose insight stage succeeds there
is exactly one insight record for the document. -/
theorem process_document_idempotent {E B : Type}
    (s3get : String → Except String B) (extract : B → String → String)
    (embed : String → Except String E) (llm : String → Option Insight)
    (w : World E B)
    (hstore : (assocKeys w.store).Nodup)
    (hins : (assocKeys w.insights).Nodup) :
    process_document s3get extract embed llm
        (process_document s3get extract embed llm w)
      = process_document s3get extract embed llm w
    ∧ (∀ (d : PDoc) (b : B) (ins : Insight),
        w.doc = some d →
        s3get d.s3_key = Except.ok b →
        extract b d.file_extension ≠ "" →
        generate_insights llm (process_document s3get extract embed llm w).store d.id
          = some ins →
        (process_document s3get extract embed llm w).insights.countP
          (fun kv => decide (kv.1 = d.id)) = 1) := by
  constructor
  · rcases hdoc : w.doc with _ | d
    · have h1 : process_document s3get extract embed llm w = w := by
        simp [process_document, hdoc]
      rw [h1, h1]
    · rcases hs3 : s3get d.s3_key with e | b
      · have h1 : process_document s3get extract embed llm w = w := by
          simp [process_document, hdoc, hs3]
        rw [h1, h1]
      · by_cases htext : extract b d.file_extension = ""
        · have h1 : process_document s3get extract embed llm w = w := by
            simp [process_document, hdoc, hs3, htext]
          rw [h1, h1]
        · set tx := extract b d.file_extension with htx
          set S1 := (chunk_and_embed_document embed tx d.id d.title d.category w.store).2
            with hS1def
          have hSS : (chunk_and_embed_document embed tx d.id d.title d.category S1).2 = S1 := by
            by_cases hch : split_text tx 1000 50 = []
            · simp [chunk_and_embed_document, hch]
            · rcases hemb : embed_texts embed (split_text tx 1000 50) with e | embs
              · simp [chunk_and_embed_document, hch, hemb]
              · have e1 := chunk_and_embed_document_ok embed tx d.id d.title d.category
                  w.store embs hch hemb
                have e2 := chunk_and_embed_document_ok embed tx d.id d.title d.category
                  S1 embs hch hemb
                have hS1eq : S1 = assocUpsertAll w.store
                    (chunk_vectors d.id d.title d.category (split_text tx 1000 50) embs) := by
                  rw [hS1def, e1]
                calc (chunk_and_embed_document embed tx d.id d.title d.category S1).2
                    = assocUpsertAll S1
                        (chunk_vectors d.id d.title d.category (split_text tx 1000 50) embs) := by
                      rw [e2]
                  _ = assocUpsertAll (assocUpsertAll w.store
                        (chunk_vectors d.id d.title d.category (split_text tx 1000 50) embs))
                        (chunk_vectors d.id d.title d.category (split_text tx 1000 50) embs) := by
                      rw [← hS1eq]
                  _ = assocUpsertAll w.store
                        (chunk_vectors d.id d.title d.category (split_text tx 1000 50) embs) :=
                      assocUpsertAll_twice _ w.store hstore
                  _ = S1 := hS1eq.symm
          rw [process_document_main s3get extract embed llm w d b hdoc hs3 htext]
          rw [process_document_main s3get extract embed llm _
            ({ d with ai_processed := true }) b rfl hs3 htext]
          dsimp only
          rw [hSS]
          rcases hgen : generate_insights llm S1 d.id with _ | ins
          · simp only [hgen]
          · simp only [hgen]
            rw [assocUpsert_idem]
  · intro d b ins hdoc hs3 htext hgen
    rw [process_document_main s3get extract embed llm w d b hdoc hs3 htext] at hgen ⊢
    dsimp only at hgen ⊢
    rw [hgen]
    exact assoc_countP_upsert w.insights d.id ins hins

/-- Witness for C7: a concrete successful run; a second run reproduces the
identical world and the document holds exactly one insight record. -/
theorem process_document_idempotent_witness :
    process_document (fun _ => Except.ok ()) (fun _ _ => "sampletext")
        (fun _ => Except.ok ()) (fun _ => some ⟨"T2", "S", [], [], ["low"]⟩)
        (process_document (fun _ => Except.ok ()) (fun _ _ => "sampletext")
          (fun _ => Except.ok ()) (fun _ => some ⟨"T2", "S", [], [], ["low"]⟩)
          (⟨some ⟨"d1", "T", "Lab", "pdf", "k", false⟩, [], []⟩ : World Unit Unit))
      = process_document (fun _ => Except.ok ()) (fun _ _ => "sampletext")
          (fun _ => Except.ok ()) (fun _ => some ⟨"T2", "S", [], [], ["low"]⟩)
          (⟨some ⟨"d1", "T", "Lab", "pdf", "k", false⟩, [], []⟩ : World Unit Unit)
    ∧ (process_document (fun _ => Except.ok ()) (fun _ _ => "sampletext")
        (fun _ => Except.ok ()) (fun _ => some ⟨"T2", "S", [], [], ["low"]⟩)
        (⟨some ⟨"d1", "T", "Lab", "pdf", "k", false⟩, [], []⟩ : World Unit Unit)).insights.countP
          (fun kv => decide (kv.1 = "d1")) = 1 :=
  ⟨(process_document_idempotent (fun _ => Except.ok ()) (fun _ _ => "sampletext")
      (fun _ => Except.ok ()) (fun _ => some ⟨"T2", "S", [], [], ["low"]⟩)
      ⟨some ⟨"d1", "T", "Lab", "pdf", "k", false⟩, [], []⟩
      (by decide) (by decide)).1,
   (process_document_idempotent (fun _ => Except.ok ()) (fun _ _ => "sampletext")
      (fun _ => Except.ok ()) (fun _ => some ⟨"T2", "S", [], [], ["low"]⟩)
      ⟨some ⟨"d1", "T", "Lab", "pdf", "k", false⟩, [], []⟩
      (by decide) (by decide)).2
      ⟨"d1", "T", "Lab", "pdf", "k", false⟩ () ⟨"T2", "S", [], [], ["low"]⟩
      rfl rfl (by decide) rfl⟩
